import Mathlib

/-!
# Verification of the temporal-parseable plugin core

A shallow embedding, in Lean 4, of the core of the `temporal_parseable`
Python package:

* `exporters.py` — the base64→hex identifier fix-up (`_b64_to_hex`,
  `_fix_bytes_fields`) and the protobuf→JSON transcoding adapter
  (`_ProtobufToJsonAdapter.send`, `_create_json_session`);
* `config.py` — `ParseableConfig` and its header/endpoint builders;
* `plugin.py` — the provider-shutdown loop of `ParseablePlugin._run_context`;
* `metrics_interceptor.py` — `_MetricsActivityInterceptor.execute_activity`.

Python byte strings are modelled as `List Nat` (each element < 256),
Python's `base64.b64decode` / `b64encode` by executable functions over the
standard alphabet, decoded protobuf documents (`MessageToDict` output) by the
inductive `PyValue` tree, and exceptions by `Option` / `Except`.
-/

/-! ## Base64 (model of Python `base64.b64encode` / `b64decode`)

`b64decode?` models `base64.b64decode` with its default `validate=False`:
a `str` argument is first ASCII-encoded (a non-ASCII character anywhere
raises `ValueError`), then `binascii.a2b_base64` scans the bytes in
non-strict mode — characters outside the alphabet and `=` signs at quad
position below 2 are discarded, a `=` at quad position 2 or 3 completes the
final group once enough pad characters have accumulated and any trailing
data after that is ignored, and a quad position other than 0 left at end of
input raises `binascii.Error`.  Both exception paths are modelled as
`none`.  The unused trailing bits of a final partial group are not
validated, as in CPython.
-/

def B64_ALPHABET : List Char :=
  "ABCDEFGHIJKLMNOPQRSTUVWXYZabcdefghijklmnopqrstuvwxyz0123456789+/".toList

def b64charOf (n : Nat) : Char := B64_ALPHABET.getD n 'A'

def lookupCharIdx : List Char → Char → Nat → Option Nat
  | [], _, _ => none
  | a :: rest, c, i => if a = c then some i else lookupCharIdx rest c (i + 1)

def b64val? (c : Char) : Option Nat := lookupCharIdx B64_ALPHABET c 0

def b64encodeList : List Nat → List Char
  | [] => []
  | [a] => [b64charOf (a / 4), b64charOf (a % 4 * 16), '=', '=']
  | [a, b] => [b64charOf (a / 4), b64charOf (a % 4 * 16 + b / 16),
               b64charOf (b % 16 * 4), '=']
  | a :: b :: c :: rest =>
      b64charOf (a / 4) :: b64charOf (a % 4 * 16 + b / 16) ::
      b64charOf (b % 16 * 4 + c / 64) :: b64charOf (c % 64) :: b64encodeList rest

/-- The scanning loop of `binascii.a2b_base64` (non-strict mode), carrying
the quad position, the pending `leftchar` bits and the pad count of the
current group.  Emitted bytes are prepended through `Option.map`, so they
are kept on the early-return path taken when padding completes the final
group and dropped on the error path, exactly as in the C implementation. -/
def b64decodeLoop : List Char → Nat → Nat → Nat → Option (List Nat)
  | [], 0, _, _ => some []
  | [], _ + 1, _, _ => none
  | c :: rest, quad_pos, leftchar, pads =>
      if c = '=' then
        if 2 ≤ quad_pos then
          if 4 ≤ quad_pos + (pads + 1) then some []
          else b64decodeLoop rest quad_pos leftchar (pads + 1)
        else b64decodeLoop rest quad_pos leftchar pads
      else
        match b64val? c with
        | none => b64decodeLoop rest quad_pos leftchar pads
        | some v =>
            match quad_pos with
            | 0 => b64decodeLoop rest 1 v 0
            | 1 => (b64decodeLoop rest 2 (v % 16) 0).map
                     (fun tl => (leftchar * 4 + v / 16) :: tl)
            | 2 => (b64decodeLoop rest 3 (v % 4) 0).map
                     (fun tl => (leftchar * 16 + v / 4) :: tl)
            | _ => (b64decodeLoop rest 0 0 0).map
                     (fun tl => (leftchar * 64 + v) :: tl)

def b64decode? (s : String) : Option (List Nat) :=
  if s.toList.all (fun c => decide (c.toNat < 128)) = true then
    b64decodeLoop s.toList 0 0 0
  else none

def b64encodeStr (bs : List Nat) : String := ⟨b64encodeList bs⟩

/-! ## Lowercase hex (model of Python `bytes.hex()`) -/

def hexDigitChar (n : Nat) : Char := "0123456789abcdef".toList.getD n '0'

def byteToHex (b : Nat) : List Char := [hexDigitChar (b / 16), hexDigitChar (b % 16)]

def bytesToHex (bs : List Nat) : String := ⟨bs.flatMap byteToHex⟩

/-! ## UTF-8 encoding (model of Python `str.encode("utf-8")`) -/

def utf8Char (c : Char) : List Nat :=
  let n := c.toNat
  if n < 128 then [n]
  else if n < 2048 then [192 + n / 64, 128 + n % 64]
  else if n < 65536 then [224 + n / 4096, 128 + n / 64 % 64, 128 + n % 64]
  else [240 + n / 262144, 128 + n / 4096 % 64, 128 + n / 64 % 64, 128 + n % 64]

def utf8Encode (s : String) : List Nat := s.toList.flatMap utf8Char

/-! ## Base64 roundtrip lemmas -/

theorem b64val_charOf : ∀ n : Nat, n < 64 → b64val? (b64charOf n) = some n := by decide

theorem b64charOf_ne_eq : ∀ n : Nat, n < 64 → b64charOf n ≠ '=' := by decide

theorem b64charOf_ascii (n : Nat) : (b64charOf n).toNat < 128 := by
  by_cases h : n < 64
  · exact (by decide : ∀ m : Nat, m < 64 → (b64charOf m).toNat < 128) n h
  · have hlen : B64_ALPHABET.length ≤ n := by
      have h64 : B64_ALPHABET.length = 64 := rfl
      omega
    rw [b64charOf, List.getD_eq_default _ _ hlen]
    decide

theorem b64encodeList_ascii (bs : List Nat) :
    (b64encodeList bs).all (fun c => decide (c.toNat < 128)) = true := by
  induction bs using b64encodeList.induct with
  | case1 => rfl
  | case2 a => simp [b64encodeList, b64charOf_ascii]
  | case3 a b => simp [b64encodeList, b64charOf_ascii]
  | case4 a b c rest ih => simp [b64encodeList, b64charOf_ascii, ih]

theorem b64decodeLoop_data0 (c : Char) (rest : List Char) (left pads v : Nat)
    (hne : c ≠ '=') (hv : b64val? c = some v) :
    b64decodeLoop (c :: rest) 0 left pads = b64decodeLoop rest 1 v 0 := by
  rw [b64decodeLoop, if_neg hne, hv]

theorem b64decodeLoop_data1 (c : Char) (rest : List Char) (left pads v : Nat)
    (hne : c ≠ '=') (hv : b64val? c = some v) :
    b64decodeLoop (c :: rest) 1 left pads =
      (b64decodeLoop rest 2 (v % 16) 0).map (fun tl => (left * 4 + v / 16) :: tl) := by
  rw [b64decodeLoop, if_neg hne, hv]

theorem b64decodeLoop_data2 (c : Char) (rest : List Char) (left pads v : Nat)
    (hne : c ≠ '=') (hv : b64val? c = some v) :
    b64decodeLoop (c :: rest) 2 left pads =
      (b64decodeLoop rest 3 (v % 4) 0).map (fun tl => (left * 16 + v / 4) :: tl) := by
  rw [b64decodeLoop, if_neg hne, hv]

theorem b64decodeLoop_data3 (c : Char) (rest : List Char) (left pads v : Nat)
    (hne : c ≠ '=') (hv : b64val? c = some v) :
    b64decodeLoop (c :: rest) 3 left pads =
      (b64decodeLoop rest 0 0 0).map (fun tl => (left * 64 + v) :: tl) := by
  rw [b64decodeLoop, if_neg hne, hv]

theorem b64decodeLoop_encodeList (bs : List Nat) (h : ∀ x ∈ bs, x < 256) :
    b64decodeLoop (b64encodeList bs) 0 0 0 = some bs := by
  induction bs using b64encodeList.induct with
  | case1 => rfl
  | case2 a =>
      have ha : a < 256 := h a (by simp)
      simp only [b64encodeList]
      rw [b64decodeLoop_data0 _ _ _ _ _
            (b64charOf_ne_eq _ (by omega)) (b64val_charOf _ (by omega)),
        b64decodeLoop_data1 _ _ _ _ _
            (b64charOf_ne_eq _ (by omega)) (b64val_charOf _ (by omega))]
      rw [show b64decodeLoop ['=', '='] 2 (a % 4 * 16 % 16) 0 = some [] from rfl]
      simp only [Option.map_some', Option.some.injEq, List.cons.injEq, and_true]
      omega
  | case3 a b =>
      have ha : a < 256 := h a (by simp)
      have hb : b < 256 := h b (by simp)
      simp only [b64encodeList]
      rw [b64decodeLoop_data0 _ _ _ _ _
            (b64charOf_ne_eq _ (by omega)) (b64val_charOf _ (by omega)),
        b64decodeLoop_data1 _ _ _ _ _
            (b64charOf_ne_eq _ (by omega)) (b64val_charOf _ (by omega)),
        b64decodeLoop_data2 _ _ _ _ _
            (b64charOf_ne_eq _ (by omega)) (b64val_charOf _ (by omega))]
      rw [show b64decodeLoop ['='] 3 (b % 16 * 4 % 4) 0 = some [] from rfl]
      simp only [Option.map_some', Option.some.injEq, List.cons.injEq, and_true]
      constructor <;> omega
  | case4 a b c rest ih =>
      have ha : a < 256 := h a (by simp)
      have hb : b < 256 := h b (by simp)
      have hc : c < 256 := h c (by simp)
      have hrest : ∀ x ∈ rest, x < 256 := fun x hx => h x (by simp [hx])
      simp only [b64encodeList]
      rw [b64decodeLoop_data0 _ _ _ _ _
            (b64charOf_ne_eq _ (by omega)) (b64val_charOf _ (by omega)),
        b64decodeLoop_data1 _ _ _ _ _
            (b64charOf_ne_eq _ (by omega)) (b64val_charOf _ (by omega)),
        b64decodeLoop_data2 _ _ _ _ _
            (b64charOf_ne_eq _ (by omega)) (b64val_charOf _ (by omega)),
        b64decodeLoop_data3 _ _ _ _ _
            (b64charOf_ne_eq _ (by omega)) (b64val_charOf _ (by omega)),
        ih hrest]
      simp only [Option.map_some', Option.some.injEq, List.cons.injEq, and_true]
      refine ⟨by omega, by omega, by omega⟩

theorem b64decode_encodeStr (bs : List Nat) (h : ∀ x ∈ bs, x < 256) :
    b64decode? (b64encodeStr bs) = some bs := by
  have hl : (b64encodeStr bs).toList = b64encodeList bs := rfl
  rw [b64decode?, hl, if_pos (b64encodeList_ascii bs)]
  exact b64decodeLoop_encodeList bs h

/-! ## Decoded documents (`MessageToDict` output) and the identifier fix-up

`PyValue` models the Python values appearing in a decoded OTLP document:
strings, ints (enums are rendered as integers via `use_integers_for_enums`),
booleans, `None`, lists, and string-keyed dicts (as ordered entry lists,
matching Python's insertion-ordered `dict`).
-/

inductive PyValue where
  | str (s : String)
  | int (n : Int)
  | bool (b : Bool)
  | null
  | list (xs : List PyValue)
  | dict (entries : List (String × PyValue))
deriving Repr

def PyValue.isStr : PyValue → Bool
  | .str _ => true
  | _ => false

/-- Scalar = not a dict and not a list (strings, ints, booleans, `None`). -/
def PyValue.isScalar : PyValue → Bool
  | .list _ => false
  | .dict _ => false
  | _ => true

/-- `_BYTES_KEYS` from `exporters.py`. -/
def _BYTES_KEYS : List String := ["traceId", "spanId", "parentSpanId"]

/-- `_b64_to_hex` from `exporters.py`: decode base64, re-encode as lowercase
hex; on decoding failure (the `except` branch) return the value unchanged. -/
def _b64_to_hex (value : String) : String :=
  match b64decode? value with
  | some raw => bytesToHex raw
  | none => value

mutual
/-- `_fix_bytes_fields` from `exporters.py`: recursively convert base64
bytes fields to hex strings in a dict. -/
def _fix_bytes_fields : PyValue → PyValue
  | .str s => .str s
  | .int n => .int n
  | .bool b => .bool b
  | .null => .null
  | .list xs => .list (fixList xs)
  | .dict kvs => .dict (fixEntries kvs)

/-- The list comprehension `[_fix_bytes_fields(item) for item in obj]`. -/
def fixList : List PyValue → List PyValue
  | [] => []
  | x :: xs => _fix_bytes_fields x :: fixList xs

/-- The dict comprehension in `_fix_bytes_fields`: entry values under a
`_BYTES_KEYS` key holding a string get `_b64_to_hex`, all others recurse. -/
def fixEntries : List (String × PyValue) → List (String × PyValue)
  | [] => []
  | (k, v) :: rest =>
      (k, if k ∈ _BYTES_KEYS ∧ v.isStr = true then
            match v with
            | .str s => PyValue.str (_b64_to_hex s)
            | w => w
          else _fix_bytes_fields v) :: fixEntries rest
end

/-! ## Paths into a document

A `Step` selects the value of the `i`-th entry of a dict (`field i`) or the
`i`-th element of a list (`item i`); `getAt` follows a path of steps.  This
is the vocabulary for "at every depth" statements about `_fix_bytes_fields`.
-/

inductive Step where
  | field (i : Nat)
  | item (i : Nat)
deriving Repr

def getAt : PyValue → List Step → Option PyValue
  | v, [] => some v
  | .dict kvs, .field i :: p =>
      match kvs.get? i with
      | some kv => getAt kv.2 p
      | none => none
  | .list xs, .item i :: p =>
      match xs.get? i with
      | some v => getAt v p
      | none => none
  | _, _ :: _ => none

theorem getAt_nil (v : PyValue) : getAt v [] = some v := by
  cases v <;> rfl

theorem fixEntries_get? (kvs : List (String × PyValue)) (i : Nat) :
    (fixEntries kvs).get? i =
      (kvs.get? i).map (fun kv =>
        (kv.1, if kv.1 ∈ _BYTES_KEYS ∧ kv.2.isStr = true then
                 match kv.2 with
                 | .str s => PyValue.str (_b64_to_hex s)
                 | w => w
               else _fix_bytes_fields kv.2)) := by
  induction kvs generalizing i with
  | nil => simp [fixEntries]
  | cons kv rest ih =>
      obtain ⟨k, v⟩ := kv
      cases i with
      | zero => simp [fixEntries]
      | succ j => simpa [fixEntries] using ih j

theorem fixList_get? (xs : List PyValue) (i : Nat) :
    (fixList xs).get? i = (xs.get? i).map _fix_bytes_fields := by
  induction xs generalizing i with
  | nil => simp [fixList]
  | cons x rest ih =>
      cases i with
      | zero => simp [fixList]
      | succ j => simpa [fixList] using ih j

theorem fixEntries_keys (kvs : List (String × PyValue)) :
    (fixEntries kvs).map Prod.fst = kvs.map Prod.fst := by
  induction kvs with
  | nil => rfl
  | cons kv rest ih => obtain ⟨k, v⟩ := kv; simp [fixEntries, ih]

theorem fixList_length (xs : List PyValue) : (fixList xs).length = xs.length := by
  induction xs with
  | nil => rfl
  | cons x rest ih => simp [fixList, ih]

/-- A scalar is untouched by the fix-up itself. -/
theorem fix_scalar (v : PyValue) (h : v.isScalar = true) :
    _fix_bytes_fields v = v := by
  cases v <;> simp_all [PyValue.isScalar, _fix_bytes_fields]

/-- Main navigation lemma: a path reaching any non-string value `v` in `d`
reaches `_fix_bytes_fields v` in `_fix_bytes_fields d`.  (A path can only
terminate at a string converted by the fix-up; it cannot pass through it.) -/
theorem getAt_fix (p : List Step) (d v : PyValue)
    (hget : getAt d p = some v) (hv : v.isStr = false) :
    getAt (_fix_bytes_fields d) p = some (_fix_bytes_fields v) := by
  induction p generalizing d with
  | nil =>
      simp only [getAt_nil, Option.some.injEq] at hget
      subst hget; exact getAt_nil _
  | cons s p ih =>
      cases s with
      | field i =>
          cases d with
          | dict kvs =>
              simp only [getAt] at hget
              cases hkv : kvs.get? i with
              | none => rw [hkv] at hget; exact absurd hget (by simp)
              | some kv =>
                  rw [hkv] at hget
                  obtain ⟨k, w⟩ := kv
                  simp only [_fix_bytes_fields, getAt, fixEntries_get?, hkv,
                    Option.map_some']
                  by_cases hcond : k ∈ _BYTES_KEYS ∧ w.isStr = true
                  · -- the entry is converted to a string; the path must stop
                    -- there, but then `v` would be a string, contradiction
                    obtain ⟨-, hstr⟩ := hcond
                    cases w with
                    | str s' =>
                        cases p with
                        | nil =>
                            simp only [getAt, Option.some.injEq] at hget
                            rw [← hget] at hv
                            simp [PyValue.isStr] at hv
                        | cons s' p' => simp [getAt] at hget
                    | int n => simp [PyValue.isStr] at hstr
                    | bool b => simp [PyValue.isStr] at hstr
                    | null => simp [PyValue.isStr] at hstr
                    | list xs => simp [PyValue.isStr] at hstr
                    | dict kvs' => simp [PyValue.isStr] at hstr
                  · rw [if_neg hcond]
                    exact ih w hget
          | str s => simp [getAt] at hget
          | int n => simp [getAt] at hget
          | bool b => simp [getAt] at hget
          | null => simp [getAt] at hget
          | list xs => simp [getAt] at hget
      | item i =>
          cases d with
          | list xs =>
              simp only [getAt] at hget
              cases hx : xs.get? i with
              | none => rw [hx] at hget; exact absurd hget (by simp)
              | some w =>
                  rw [hx] at hget
                  simp only [_fix_bytes_fields, getAt, fixList_get?, hx,
                    Option.map_some']
                  exact ih w hget
          | str s => simp [getAt] at hget
          | int n => simp [getAt] at hget
          | bool b => simp [getAt] at hget
          | null => simp [getAt] at hget
          | dict kvs => simp [getAt] at hget

/-! ## JSON serialization (model of `json.dumps(d, ensure_ascii=False)`)

Default separators `", "` / `": "`; with `ensure_ascii=False` only `"`,
`\` and control characters below U+0020 are escaped, everything else is
emitted verbatim and the result is UTF-8 encoded by `str.encode`.
-/

def jsonEscapeChar (c : Char) : List Char :=
  if c = '"' then ['\\', '"']
  else if c = '\\' then ['\\', '\\']
  else if c = '\n' then ['\\', 'n']
  else if c = '\t' then ['\\', 't']
  else if c = '\r' then ['\\', 'r']
  else if c = Char.ofNat 8 then ['\\', 'b']
  else if c = Char.ofNat 12 then ['\\', 'f']
  else if c.toNat < 32 then
    ['\\', 'u', '0', '0', hexDigitChar (c.toNat / 16), hexDigitChar (c.toNat % 16)]
  else [c]

def jsonStringLit (s : String) : String :=
  ⟨'"' :: (s.toList.flatMap jsonEscapeChar ++ ['"'])⟩

mutual
def jsonDumps : PyValue → String
  | .str s => jsonStringLit s
  | .int n => toString n
  | .bool true => "true"
  | .bool false => "false"
  | .null => "null"
  | .list xs => "[" ++ jsonDumpsList xs ++ "]"
  | .dict kvs => "\x7b" ++ jsonDumpsEntries kvs ++ "\x7d"

def jsonDumpsList : List PyValue → String
  | [] => ""
  | [x] => jsonDumps x
  | x :: xs => jsonDumps x ++ ", " ++ jsonDumpsList xs

def jsonDumpsEntries : List (String × PyValue) → String
  | [] => ""
  | [(k, v)] => jsonStringLit k ++ ": " ++ jsonDumps v
  | (k, v) :: rest => jsonStringLit k ++ ": " ++ jsonDumps v ++ ", " ++ jsonDumpsEntries rest
end

/-! ## The transcoding adapter (`_ProtobufToJsonAdapter.send`)

An outgoing `requests` request is modelled by `PRequest`: target URL,
headers (a `CaseInsensitiveDict`, modelled as an ordered association list
with case-insensitive key lookup/update), and body bytes (`none` models a
`None` body).  `request.body and ...` is Python truthiness: `None` and
empty bytes are falsy.

`ParseFromString` followed by `MessageToDict(msg, use_integers_for_enums=True)`
is the bound message shape's decoder; it is external protobuf machinery, so
the adapter model is parameterised by a function
`decode : List Nat → Option PyValue` (`none` models a raised parse error,
which `send` propagates).  `adapterSend` returns `some r'` when the adapter
hands request `r'` to the underlying `HTTPAdapter.send`, and `none` when it
raises.
-/

def asciiLower (c : Char) : Char :=
  if 65 ≤ c.toNat ∧ c.toNat ≤ 90 then Char.ofNat (c.toNat + 32) else c

def lowerList (s : String) : List Char := s.toList.map asciiLower

def headerGet : List (String × String) → String → Option String
  | [], _ => none
  | (k, v) :: rest, key =>
      if lowerList k = lowerList key then some v else headerGet rest key

def headerSet : List (String × String) → String → String → List (String × String)
  | [], key, val => [(key, val)]
  | (k, v) :: rest, key, val =>
      if lowerList k = lowerList key then (key, val) :: rest
      else (k, v) :: headerSet rest key val

structure PRequest where
  url : String
  headers : List (String × String)
  body : Option (List Nat)
deriving Repr

def bodyTruthy : Option (List Nat) → Bool
  | none => false
  | some bs => !bs.isEmpty

def adapterSend (decode : List Nat → Option PyValue) (r : PRequest) :
    Option PRequest :=
  if bodyTruthy r.body = true ∧
      headerGet r.headers "Content-Type" = some "application/x-protobuf" then
    match decode (r.body.getD []) with
    | none => none
    | some d =>
        let body := utf8Encode (jsonDumps (_fix_bytes_fields d))
        some { url := r.url
               headers := headerSet
                            (headerSet r.headers "Content-Type" "application/json")
                            "Content-Length" (toString body.length)
               body := some body }
  else some r

/-- `requests.Session.get_adapter` dispatch after
`session.mount(endpoint, _ProtobufToJsonAdapter(...))` in
`_create_json_session`: a request whose URL matches the mounted prefix
(case-insensitively, longest prefix first — the mounted endpoint is longer
than the default `http://`/`https://` mounts) goes through the transcoding
adapter, any other request goes through a default adapter unchanged. -/
def sessionSend (endpoint : String) (decode : List Nat → Option PyValue)
    (r : PRequest) : Option PRequest :=
  if (lowerList endpoint).isPrefixOf (lowerList r.url) = true then
    adapterSend decode r
  else some r

/-! ## Configuration (`config.py`) -/

structure ParseableConfig where
  url : String := "http://localhost:8000"
  username : String := "admin"
  password : String := "admin"
  traces_stream : String := "temporal-traces"
  logs_stream : String := "temporal-logs"
  metrics_stream : String := "temporal-metrics"
  temporal_host : String := "localhost:7233"
  temporal_namespace : String := "default"
  service_name : String := "temporal-worker"
  enable_traces : Bool := true
  enable_logs : Bool := true
  enable_metrics : Bool := true
deriving Repr

/-- `ParseableConfig.auth_header`: `"Basic " + b64encode(f"{username}:{password}")`. -/
def ParseableConfig.auth_header (c : ParseableConfig) : String :=
  "Basic " ++ b64encodeStr (utf8Encode (c.username ++ ":" ++ c.password))

/-- `ParseableConfig._LOG_SOURCE_MAP`. -/
def _LOG_SOURCE_MAP : List (String × String) :=
  [("traces", "otel-traces"), ("logs", "otel-logs"), ("metrics", "otel-metrics")]

/-- Python `dict.get(k, default)` on a string-keyed map. -/
def dictGetD : List (String × String) → String → String → String
  | [], _, d => d
  | (k, v) :: rest, key, d => if k = key then v else dictGetD rest key d

/-- `ParseableConfig.headers_for_signal`. -/
def ParseableConfig.headers_for_signal (c : ParseableConfig)
    (stream signal : String) : List (String × String) :=
  [("Authorization", c.auth_header),
   ("X-P-Stream", stream),
   ("X-P-Log-Source", dictGetD _LOG_SOURCE_MAP signal ("otel-" ++ signal))]

def ParseableConfig.traces_endpoint (c : ParseableConfig) : String :=
  c.url ++ "/v1/traces"

def ParseableConfig.logs_endpoint (c : ParseableConfig) : String :=
  c.url ++ "/v1/logs"

def ParseableConfig.metrics_endpoint (c : ParseableConfig) : String :=
  c.url ++ "/v1/metrics"

/-- The spec's `buildEnvelope(profile, streamName, signalKind) → (url, headers)`
(§4.1): the code realises the URL part as the three `*_endpoint` properties
and the header part as `headers_for_signal`. -/
def buildEnvelope (c : ParseableConfig) (stream signal : String) :
    String × List (String × String) :=
  (c.url ++ "/v1/" ++ signal, c.headers_for_signal stream signal)

def defaultParseableConfig : ParseableConfig := {}

def strEndsWith (s suffix : String) : Bool :=
  suffix.toList.isSuffixOf s.toList

/-! ## Plugin teardown (`ParseablePlugin._run_context`, `finally` block)

A provider is modelled by an id and the outcome its `shutdown()` call
produces (`Except.error` models a raised exception).  `shutdownProviders`
is the `for provider in self._providers: try: provider.shutdown() except:
logger.exception(...)` loop; it returns the ids whose `shutdown` was
invoked, in order, and the `(id, message)` pairs that were logged.  Being a
total function into a plain pair, the loop itself never raises.
-/

structure OtelProvider where
  id : Nat
  shutdownResult : Except String Unit

def shutdownProviders : List OtelProvider → List Nat × List (Nat × String)
  | [] => ([], [])
  | p :: rest =>
      let r := shutdownProviders rest
      match p.shutdownResult with
      | .ok _ => (p.id :: r.1, r.2)
      | .error e => (p.id :: r.1, (p.id, e) :: r.2)

/-! ## Metrics interceptor (`_MetricsActivityInterceptor.execute_activity`)

The inner `await self.next.execute_activity(input)` either returns a value
or raises; both are modelled by `Outcome`.  The meter operations performed
are recorded as an event list: `counterAdd name v attrs` models
`counter.add(v, attrs)` and `histRecord name dur attrs` models
`histogram.record(dur, attrs)` (the measured wall-clock duration is an
opaque parameter).  When no meter is set (`_meter is None`) the call is
forwarded with no instrumentation.
-/

inductive Outcome (α : Type) where
  | ok (a : α)
  | exn (e : String)
deriving Repr, DecidableEq

structure ActivityInfo where
  activity_type : String
  workflow_type : String
  task_queue : String
  workflow_namespace : String
deriving Repr

def activityAttrs (info : ActivityInfo) : List (String × String) :=
  [("activity_type", info.activity_type),
   ("workflow_type", info.workflow_type),
   ("task_queue", info.task_queue),
   ("namespace", info.workflow_namespace)]

inductive MEvent where
  | counterAdd (name : String) (v : Nat) (attrs : List (String × String))
  | histRecord (name : String) (dur : Nat) (attrs : List (String × String))
deriving Repr, DecidableEq

def execute_activity {α : Type} (meterSet : Bool) (info : ActivityInfo)
    (dur : Nat) (inner : Outcome α) : Outcome α × List MEvent :=
  if meterSet = false then (inner, [])
  else
    let attrs := activityAttrs info
    match inner with
    | .ok a =>
        (.ok a,
         [.counterAdd "temporal.activity.started" 1 attrs,
          .counterAdd "temporal.activity.completed" 1 attrs,
          .histRecord "temporal.activity.duration" dur attrs])
    | .exn e =>
        (.exn e,
         [.counterAdd "temporal.activity.started" 1 attrs,
          .counterAdd "temporal.activity.failed" 1 attrs,
          .histRecord "temporal.activity.duration" dur attrs])

def counterTotal (evs : List MEvent) (name : String) : Nat :=
  (evs.map (fun ev =>
    match ev with
    | .counterAdd n v _ => if n = name then v else 0
    | .histRecord _ _ _ => 0)).sum

def histCount (evs : List MEvent) (name : String) : Nat :=
  (evs.filter (fun ev =>
    match ev with
    | .histRecord n _ _ => n = name
    | .counterAdd _ _ _ => false)).length

def eventAttrs : MEvent → List (String × String)
  | .counterAdd _ _ attrs => attrs
  | .histRecord _ _ attrs => attrs

def allTagged (evs : List MEvent) (info : ActivityInfo) : Bool :=
  evs.all (fun ev =>
    (eventAttrs ev).contains ("activity_type", info.activity_type) &&
    (eventAttrs ev).contains ("workflow_type", info.workflow_type) &&
    (eventAttrs ev).contains ("task_queue", info.task_queue))

/-! ## Demo values used by witnesses -/

def demoDoc : PyValue :=
  .dict [("resourceSpans",
          .list [.dict [("traceId", .str "3q2+7w=="),
                        ("name", .str "op"),
                        ("spanId", .str "A"),
                        ("droppedAttributesCount", .int 0)]])]

def demoInner : List (String × PyValue) :=
  [("traceId", .str "3q2+7w=="),
   ("name", .str "op"),
   ("spanId", .str "A"),
   ("droppedAttributesCount", .int 0)]

/-! ## C1, C4, C6: the identifier fix-up -/

/-- C1: For every decoded document, the transcoding fix-up replaces each
mapping entry whose key is one of `traceId`, `spanId`, `parentSpanId` and
whose value is a string holding valid base64 with the lowercase hexadecimal
rendering of the decoded bytes, recursively at every depth inside nested
mappings and lists. -/
theorem fix_converts_base64_ids (d : PyValue) (p : List Step)
    (kvs : List (String × PyValue)) (i : Nat) (k s : String) (raw : List Nat)
    (hget : getAt d p = some (.dict kvs))
    (hkv : kvs.get? i = some (k, .str s))
    (hkey : k ∈ _BYTES_KEYS)
    (hdec : b64decode? s = some raw) :
    ∃ kvs', getAt (_fix_bytes_fields d) p = some (.dict kvs') ∧
      kvs'.get? i = some (k, .str (bytesToHex raw)) := by
  have hfix := getAt_fix p d (.dict kvs) hget rfl
  refine ⟨fixEntries kvs, ?_, ?_⟩
  · simpa [_fix_bytes_fields] using hfix
  · rw [fixEntries_get?, hkv, Option.map_some']
    rw [if_pos ⟨hkey, rfl⟩]
    simp [_b64_to_hex, hdec]

theorem fix_converts_base64_ids_witness :
    getAt demoDoc [.field 0, .item 0] = some (.dict demoInner) ∧
    demoInner.get? 0 = some ("traceId", .str "3q2+7w==") ∧
    "traceId" ∈ _BYTES_KEYS ∧
    b64decode? "3q2+7w==" = some [222, 173, 190, 239] ∧
    bytesToHex [222, 173, 190, 239] = "deadbeef" ∧
    ∃ kvs', getAt (_fix_bytes_fields demoDoc) [.field 0, .item 0] = some (.dict kvs') ∧
      kvs'.get? 0 = some ("traceId", .str (bytesToHex [222, 173, 190, 239])) :=
  ⟨rfl, rfl, by decide, rfl, rfl,
   fix_converts_base64_ids demoDoc [.field 0, .item 0] demoInner 0
     "traceId" "3q2+7w==" [222, 173, 190, 239] rfl rfl (by decide) rfl⟩

/-- C4 counterexample: the claim as stated fails on the code.  `"!!"` is
not valid base64, yet `base64.b64decode` in its default lenient mode
discards the two invalid characters and returns `b""` instead of raising,
so the fix-up rewrites a `spanId` value `"!!"` to `""` rather than leaving
it unchanged. -/
theorem fix_rewrites_lenient_base64 :
    b64decode? "!!" = some [] ∧
    _b64_to_hex "!!" = "" ∧
    _fix_bytes_fields (.dict [("spanId", .str "!!")]) =
      .dict [("spanId", .str "")] ∧
    ("" : String) ≠ "!!" :=
  ⟨rfl, rfl, rfl, by decide⟩

/-- C4 (amended): a `traceId`/`spanId`/`parentSpanId` entry whose string
value makes the lenient base64 decoder raise — a dangling data character or
incorrect padding, rather than merely containing non-alphabet characters —
is left unchanged (the `except` branch of `_b64_to_hex`), and the fix-up —
a total function — continues over the remaining fields. -/
theorem fix_leaves_invalid_base64 (d : PyValue) (p : List Step)
    (kvs : List (String × PyValue)) (i : Nat) (k s : String)
    (hget : getAt d p = some (.dict kvs))
    (hkv : kvs.get? i = some (k, .str s))
    (hkey : k ∈ _BYTES_KEYS)
    (hdec : b64decode? s = none) :
    ∃ kvs', getAt (_fix_bytes_fields d) p = some (.dict kvs') ∧
      kvs'.get? i = some (k, .str s) ∧
      kvs'.map Prod.fst = kvs.map Prod.fst := by
  have hfix := getAt_fix p d (.dict kvs) hget rfl
  refine ⟨fixEntries kvs, ?_, ?_, fixEntries_keys kvs⟩
  · simpa [_fix_bytes_fields] using hfix
  · rw [fixEntries_get?, hkv, Option.map_some']
    rw [if_pos ⟨hkey, rfl⟩]
    simp [_b64_to_hex, hdec]

theorem fix_leaves_invalid_base64_witness :
    getAt demoDoc [.field 0, .item 0] = some (.dict demoInner) ∧
    demoInner.get? 2 = some ("spanId", .str "A") ∧
    "spanId" ∈ _BYTES_KEYS ∧
    b64decode? "A" = none ∧
    ∃ kvs', getAt (_fix_bytes_fields demoDoc) [.field 0, .item 0] = some (.dict kvs') ∧
      kvs'.get? 2 = some ("spanId", .str "A") ∧
      kvs'.map Prod.fst = demoInner.map Prod.fst :=
  ⟨rfl, rfl, by decide, rfl,
   fix_leaves_invalid_base64 demoDoc [.field 0, .item 0] demoInner 2
     "spanId" "A" rfl rfl (by decide) rfl⟩

/-- C6: the fix-up changes only string values stored under the three
identifier keys: every mapping keeps exactly its keys, every list keeps its
length and (pointwise) element order, every scalar not directly under one
of those keys is unchanged, and a scalar document is returned as-is. -/
theorem fix_frame_effect (d : PyValue) :
    (∀ p kvs, getAt d p = some (.dict kvs) →
       ∃ kvs', getAt (_fix_bytes_fields d) p = some (.dict kvs') ∧
         kvs'.map Prod.fst = kvs.map Prod.fst) ∧
    (∀ p xs, getAt d p = some (.list xs) →
       ∃ xs', getAt (_fix_bytes_fields d) p = some (.list xs') ∧
         xs'.length = xs.length ∧
         ∀ i : Nat, xs'.get? i = (xs.get? i).map _fix_bytes_fields) ∧
    (∀ p kvs i k v, getAt d p = some (.dict kvs) → kvs.get? i = some (k, v) →
       k ∉ _BYTES_KEYS → v.isScalar = true →
       ∃ kvs', getAt (_fix_bytes_fields d) p = some (.dict kvs') ∧
         kvs'.get? i = some (k, v)) ∧
    (∀ p xs i v, getAt d p = some (.list xs) → xs.get? i = some v →
       v.isScalar = true →
       ∃ xs', getAt (_fix_bytes_fields d) p = some (.list xs') ∧
         xs'.get? i = some v) ∧
    (d.isScalar = true → _fix_bytes_fields d = d) := by
  refine ⟨?_, ?_, ?_, ?_, fix_scalar d⟩
  · intro p kvs hget
    have hfix := getAt_fix p d (.dict kvs) hget rfl
    exact ⟨fixEntries kvs, by simpa [_fix_bytes_fields] using hfix,
           fixEntries_keys kvs⟩
  · intro p xs hget
    have hfix := getAt_fix p d (.list xs) hget rfl
    exact ⟨fixList xs, by simpa [_fix_bytes_fields] using hfix,
           fixList_length xs, fun i => fixList_get? xs i⟩
  · intro p kvs i k v hget hkv hkey hscalar
    have hfix := getAt_fix p d (.dict kvs) hget rfl
    refine ⟨fixEntries kvs, by simpa [_fix_bytes_fields] using hfix, ?_⟩
    rw [fixEntries_get?, hkv, Option.map_some']
    rw [if_neg (fun hc => hkey hc.1)]
    rw [fix_scalar v hscalar]
  · intro p xs i v hget hx hscalar
    have hfix := getAt_fix p d (.list xs) hget rfl
    refine ⟨fixList xs, by simpa [_fix_bytes_fields] using hfix, ?_⟩
    rw [fixList_get?, hx, Option.map_some', fix_scalar v hscalar]

theorem fix_frame_effect_witness :
    (∃ kvs', getAt (_fix_bytes_fields demoDoc) [.field 0, .item 0] = some (.dict kvs') ∧
       kvs'.map Prod.fst = demoInner.map Prod.fst) ∧
    (∃ xs', getAt (_fix_bytes_fields demoDoc) [.field 0] = some (.list xs') ∧
       xs'.length = 1 ∧
       ∀ i : Nat, xs'.get? i =
         (([PyValue.dict demoInner] : List PyValue).get? i).map _fix_bytes_fields) ∧
    (∃ kvs', getAt (_fix_bytes_fields demoDoc) [.field 0, .item 0] = some (.dict kvs') ∧
       kvs'.get? 1 = some ("name", .str "op")) ∧
    (∃ xs', getAt (_fix_bytes_fields (.list [.int 7])) [] = some (.list xs') ∧
       xs'.get? 0 = some (.int 7)) :=
  ⟨(fix_frame_effect demoDoc).1 [.field 0, .item 0] demoInner rfl,
   (fix_frame_effect demoDoc).2.1 [.field 0] [PyValue.dict demoInner] rfl,
   (fix_frame_effect demoDoc).2.2.1 [.field 0, .item 0] demoInner 1 "name"
     (.str "op") rfl rfl (by decide) rfl,
   (fix_frame_effect (.list [.int 7])).2.2.2.1 [] [PyValue.int 7] 0 (.int 7)
     rfl rfl rfl⟩

/-! ## C5: the base64/hex round-trip -/

/-- C5: for every byte sequence `b`,
`hex(b) = toLowerHex(fromBase64(toBase64(b)))` — feeding the base64
encoding of `b` through `_b64_to_hex` yields exactly the lowercase hex
rendering of `b`. -/
theorem b64_hex_roundtrip (bs : List Nat) (h : ∀ x ∈ bs, x < 256) :
    bytesToHex bs = _b64_to_hex (b64encodeStr bs) := by
  rw [_b64_to_hex, b64decode_encodeStr bs h]

theorem b64_hex_roundtrip_witness :
    (∀ x ∈ [222, 173, 190, 239], x < 256) ∧
    bytesToHex [222, 173, 190, 239] = _b64_to_hex (b64encodeStr [222, 173, 190, 239]) :=
  ⟨by decide, b64_hex_roundtrip [222, 173, 190, 239] (by decide)⟩

/-! ## C2, C3, C10: the transcoding adapter -/

theorem headerGet_set_self (hs : List (String × String)) (k v : String) :
    headerGet (headerSet hs k v) k = some v := by
  induction hs with
  | nil => simp [headerSet, headerGet]
  | cons kv rest ih =>
      obtain ⟨k', v'⟩ := kv
      by_cases h : lowerList k' = lowerList k
      · simp [headerSet, headerGet, h]
      · simp only [headerSet, if_neg h, headerGet]
        exact ih

theorem headerGet_set_other (hs : List (String × String)) (k1 k2 v : String)
    (h : lowerList k1 ≠ lowerList k2) :
    headerGet (headerSet hs k2 v) k1 = headerGet hs k1 := by
  induction hs with
  | nil =>
      simp only [headerSet, headerGet]
      rw [if_neg (fun hc => h hc.symm)]
  | cons kv rest ih =>
      obtain ⟨k', v'⟩ := kv
      by_cases hk : lowerList k' = lowerList k2
      · simp only [headerSet, if_pos hk, headerGet]
        rw [if_neg (fun hc => h hc.symm), if_neg (by rw [hk]; exact fun hc => h hc.symm)]
      · simp only [headerSet, if_neg hk, headerGet]
        by_cases hq : lowerList k' = lowerList k1
        · rw [if_pos hq, if_pos hq]
        · rw [if_neg hq, if_neg hq]
          exact ih

/-- C2: a request targeting the bound URL prefix with content type
`application/x-protobuf` has its body replaced by the UTF-8 JSON
serialization (no forced ASCII escaping) of the fixed-up decoded document,
its `Content-Type` header set to `application/json`, and its
`Content-Length` header set to the byte length of the new body; the URL is
untouched. -/
theorem adapter_transcodes (endpoint : String)
    (decode : List Nat → Option PyValue) (r : PRequest) (d : PyValue)
    (hurl : (lowerList endpoint).isPrefixOf (lowerList r.url) = true)
    (hct : headerGet r.headers "Content-Type" = some "application/x-protobuf")
    (hbody : bodyTruthy r.body = true)
    (hdec : decode (r.body.getD []) = some d) :
    ∃ r', sessionSend endpoint decode r = some r' ∧
      r'.body = some (utf8Encode (jsonDumps (_fix_bytes_fields d))) ∧
      headerGet r'.headers "Content-Type" = some "application/json" ∧
      headerGet r'.headers "Content-Length" =
        some (toString (utf8Encode (jsonDumps (_fix_bytes_fields d))).length) ∧
      r'.url = r.url := by
  rw [sessionSend, if_pos hurl, adapterSend, if_pos ⟨hbody, hct⟩, hdec]
  refine ⟨_, rfl, rfl, ?_, headerGet_set_self _ _ _, rfl⟩
  rw [headerGet_set_other _ _ _ _ (by decide)]
  exact headerGet_set_self _ _ _

def demoProtoRequest : PRequest :=
  { url := "http://localhost:8000/v1/traces"
    headers := [("User-Agent", "python-requests"),
                ("Content-Type", "application/x-protobuf")]
    body := some [10] }

def demoDecode : List Nat → Option PyValue :=
  fun bs => if bs = [10] then some demoDoc else none

theorem adapter_transcodes_witness :
    (lowerList "http://localhost:8000/v1/traces").isPrefixOf
      (lowerList demoProtoRequest.url) = true ∧
    headerGet demoProtoRequest.headers "Content-Type" =
      some "application/x-protobuf" ∧
    bodyTruthy demoProtoRequest.body = true ∧
    demoDecode (demoProtoRequest.body.getD []) = some demoDoc ∧
    ∃ r', sessionSend "http://localhost:8000/v1/traces" demoDecode
            demoProtoRequest = some r' ∧
      r'.body = some (utf8Encode (jsonDumps (_fix_bytes_fields demoDoc))) ∧
      headerGet r'.headers "Content-Type" = some "application/json" ∧
      headerGet r'.headers "Content-Length" =
        some (toString (utf8Encode (jsonDumps (_fix_bytes_fields demoDoc))).length) ∧
      r'.url = demoProtoRequest.url :=
  ⟨by decide, rfl, rfl, rfl,
   adapter_transcodes "http://localhost:8000/v1/traces" demoDecode
     demoProtoRequest demoDoc (by decide) rfl rfl rfl⟩

/-- C3: a request whose content type is not the binary-protocol marker, or
whose URL does not match the bound prefix, is handed on byte-identical:
the session forwards exactly the original request. -/
theorem adapter_passthrough (endpoint : String)
    (decode : List Nat → Option PyValue) (r : PRequest)
    (h : (lowerList endpoint).isPrefixOf (lowerList r.url) = false ∨
         headerGet r.headers "Content-Type" ≠ some "application/x-protobuf") :
    sessionSend endpoint decode r = some r := by
  rw [sessionSend]
  rcases h with h | h
  · rw [if_neg (by rw [h]; exact fun hc => Bool.noConfusion hc)]
  · by_cases hurl : (lowerList endpoint).isPrefixOf (lowerList r.url) = true
    · rw [if_pos hurl, adapterSend, if_neg (fun hc => h hc.2)]
    · rw [if_neg hurl]

def demoJsonRequest : PRequest :=
  { url := "http://localhost:8000/v1/traces"
    headers := [("Content-Type", "application/json")]
    body := some [123] }

theorem adapter_passthrough_witness :
    ((lowerList "http://localhost:8000/v1/traces").isPrefixOf
       (lowerList demoJsonRequest.url) = false ∨
     headerGet demoJsonRequest.headers "Content-Type" ≠
       some "application/x-protobuf") ∧
    sessionSend "http://localhost:8000/v1/traces" demoDecode demoJsonRequest =
      some demoJsonRequest :=
  ⟨Or.inr (by decide),
   adapter_passthrough "http://localhost:8000/v1/traces" demoDecode
     demoJsonRequest (Or.inr (by decide))⟩

/-- C10: a request with an empty body (`None` or zero length) is forwarded
to the underlying transport completely unchanged, even when its content
type is the binary-protocol marker and its URL matches the bound prefix. -/
theorem adapter_empty_body_passthrough (endpoint : String)
    (decode : List Nat → Option PyValue) (r : PRequest)
    (h : bodyTruthy r.body = false) :
    sessionSend endpoint decode r = some r := by
  rw [sessionSend]
  by_cases hurl : (lowerList endpoint).isPrefixOf (lowerList r.url) = true
  · rw [if_pos hurl, adapterSend,
      if_neg (fun hc => by rw [h] at hc; exact Bool.noConfusion hc.1)]
  · rw [if_neg hurl]

def demoEmptyRequest : PRequest :=
  { url := "http://localhost:8000/v1/traces"
    headers := [("Content-Type", "application/x-protobuf")]
    body := none }

theorem adapter_empty_body_passthrough_witness :
    bodyTruthy demoEmptyRequest.body = false ∧
    headerGet demoEmptyRequest.headers "Content-Type" =
      some "application/x-protobuf" ∧
    (lowerList "http://localhost:8000/v1/traces").isPrefixOf
      (lowerList demoEmptyRequest.url) = true ∧
    sessionSend "http://localhost:8000/v1/traces" demoDecode demoEmptyRequest =
      some demoEmptyRequest :=
  ⟨rfl, rfl, by decide,
   adapter_empty_body_passthrough "http://localhost:8000/v1/traces" demoDecode
     demoEmptyRequest rfl⟩

/-! ## C7: the envelope builder -/

theorem dictGetD_log_source (signal : String) :
    dictGetD _LOG_SOURCE_MAP signal ("otel-" ++ signal) = "otel-" ++ signal := by
  show (if "traces" = signal then "otel-traces" else
        if "logs" = signal then "otel-logs" else
        if "metrics" = signal then "otel-metrics" else "otel-" ++ signal) =
       "otel-" ++ signal
  by_cases h1 : "traces" = signal
  · rw [if_pos h1, ← h1]; rfl
  · rw [if_neg h1]
    by_cases h2 : "logs" = signal
    · rw [if_pos h2, ← h2]; rfl
    · rw [if_neg h2]
      by_cases h3 : "metrics" = signal
      · rw [if_pos h3, ← h3]; rfl
      · rw [if_neg h3]

/-- C7: for every connection profile, stream name and signal kind, the
envelope builder yields the URL `{baseURL}/v1/{signalKind}` (realised by the
three `*_endpoint` properties for the known kinds) and headers with
`Authorization = "Basic " ++ base64("username:password")`, the stream name
verbatim in `X-P-Stream`, and `X-P-Log-Source = "otel-" ++ signalKind` — by
table lookup for the three known kinds and by the `dict.get` fallback for
any unknown kind, never erroring; under default credentials with stream
`temporal-traces` and kind `traces` the URL ends in `/v1/traces`,
`X-P-Log-Source` is `otel-traces`, and the `Authorization` token
base64-decodes to `admin:admin`. -/
theorem envelope_builder_spec :
    (∀ (c : ParseableConfig) (stream signal : String),
       buildEnvelope c stream signal =
         (c.url ++ "/v1/" ++ signal,
          [("Authorization",
            "Basic " ++ b64encodeStr (utf8Encode (c.username ++ ":" ++ c.password))),
           ("X-P-Stream", stream),
           ("X-P-Log-Source", "otel-" ++ signal)])) ∧
    (∀ (c : ParseableConfig) (stream : String),
       (buildEnvelope c stream "traces").1 = c.traces_endpoint ∧
       (buildEnvelope c stream "logs").1 = c.logs_endpoint ∧
       (buildEnvelope c stream "metrics").1 = c.metrics_endpoint) ∧
    strEndsWith
      (buildEnvelope defaultParseableConfig "temporal-traces" "traces").1
      "/v1/traces" = true ∧
    headerGet
      (buildEnvelope defaultParseableConfig "temporal-traces" "traces").2
      "X-P-Log-Source" = some "otel-traces" ∧
    headerGet
      (buildEnvelope defaultParseableConfig "temporal-traces" "traces").2
      "X-P-Stream" = some "temporal-traces" ∧
    defaultParseableConfig.auth_header =
      "Basic " ++ b64encodeStr (utf8Encode "admin:admin") ∧
    b64decode? (b64encodeStr (utf8Encode "admin:admin")) =
      some (utf8Encode "admin:admin") := by
  refine ⟨?_, ?_, by decide, by decide, by decide, rfl, rfl⟩
  · intro c stream signal
    rw [buildEnvelope, ParseableConfig.headers_for_signal,
      dictGetD_log_source signal, ParseableConfig.auth_header]
  · intro c stream
    refine ⟨?_, ?_, ?_⟩ <;>
      · rw [buildEnvelope]
        rw [String.append_assoc]
        rfl

/-! ## C8: plugin teardown -/

/-- C8: the teardown loop invokes `shutdown` on every provider in order,
regardless of which providers raise; each raising provider's exception is
caught and logged (never propagated — the loop is a total function). -/
theorem teardown_shuts_down_all (ps : List OtelProvider) :
    (shutdownProviders ps).1 = ps.map OtelProvider.id ∧
    (shutdownProviders ps).2 = ps.filterMap (fun p =>
      match p.shutdownResult with
      | .error e => some (p.id, e)
      | .ok _ => none) := by
  induction ps with
  | nil => exact ⟨rfl, rfl⟩
  | cons p rest ih =>
      obtain ⟨h1, h2⟩ := ih
      cases hres : p.shutdownResult with
      | ok u =>
          constructor
          · simp [shutdownProviders, hres, h1]
          · simp [shutdownProviders, hres, h2, List.filterMap_cons]
      | error e =>
          constructor
          · simp [shutdownProviders, hres, h1]
          · simp [shutdownProviders, hres, h2, List.filterMap_cons]

/-! ## C9: the metrics interceptor -/

/-- C9: with a meter set, each activity execution adds exactly 1 to the
started counter and then exactly 1 to exactly one of the completed counter
(normal return, result passed through unchanged) or the failed counter
(exception re-raised), and records exactly one duration measurement in both
outcomes, every event tagged with the activity type, workflow type and task
queue. -/
theorem metrics_interceptor_spec :
    ∀ (α : Type) (info : ActivityInfo) (dur : Nat),
      (∀ a : α,
        (execute_activity true info dur (.ok a)).1 = .ok a ∧
        counterTotal (execute_activity true info dur (.ok a)).2
          "temporal.activity.started" = 1 ∧
        counterTotal (execute_activity true info dur (.ok a)).2
          "temporal.activity.completed" = 1 ∧
        counterTotal (execute_activity true info dur (.ok a)).2
          "temporal.activity.failed" = 0 ∧
        histCount (execute_activity true info dur (.ok a)).2
          "temporal.activity.duration" = 1 ∧
        allTagged (execute_activity true info dur (.ok a)).2 info = true) ∧
      (∀ e : String,
        (execute_activity true info dur (.exn e : Outcome α)).1 = .exn e ∧
        counterTotal (execute_activity true info dur (.exn e : Outcome α)).2
          "temporal.activity.started" = 1 ∧
        counterTotal (execute_activity true info dur (.exn e : Outcome α)).2
          "temporal.activity.completed" = 0 ∧
        counterTotal (execute_activity true info dur (.exn e : Outcome α)).2
          "temporal.activity.failed" = 1 ∧
        histCount (execute_activity true info dur (.exn e : Outcome α)).2
          "temporal.activity.duration" = 1 ∧
        allTagged (execute_activity true info dur (.exn e : Outcome α)).2 info
          = true) := by
  intro α info dur
  constructor
  · intro a
    refine ⟨rfl, rfl, rfl, rfl, rfl, ?_⟩
    simp [execute_activity, allTagged, eventAttrs, activityAttrs]
  · intro e
    refine ⟨rfl, rfl, rfl, rfl, rfl, ?_⟩
    simp [execute_activity, allTagged, eventAttrs, activityAttrs]
